import Mathlib

/-!
Verification of the `xdot` dotfile linker (src/main.rs) against its
natural-language specification.

The program walks a source ("package") subtree against a destination
subtree and, per (source, destination) pair, creates a symlink, skips an
already-correct link, descends into a pre-existing destination directory,
or reports a conflict (`symlink_or_descend`, src/main.rs:259-307, and
`descend_and_symlink`, src/main.rs:245-256).

Filesystem modelling. `std::fs::metadata` follows symlinks, so destination
state is modelled in *resolved view*: a node is a regular file (with its
device and inode numbers), a directory (device, inode, and association
list of children, as `read_dir` enumerates them), or `denied` — a node on
which the metadata read fails with an error other than "not found"
(realizable e.g. for children of a directory with read-but-not-search
permission).  Creating a symlink whose target resolves to a source
subtree is recorded as that subtree appearing at the destination path;
removing the link removes it.  A destination that does not exist is
`Option.none`.  Console output is modelled as a list of `Report` values,
one constructor per distinct `println!` format string of the source;
actual filesystem mutations are recorded separately as `Mutation` values.
-/

namespace Xdot

/-- A filesystem path: its component list below the root. `[]` is `/`. -/
abbrev Path : Type := List String

mutual
/-- Resolved view of a filesystem node, as observed through
`std::fs::metadata` (which follows symlinks) and `read_dir`. -/
inductive FsTree : Type
  | file (dev ino : Nat)
  | dir (dev ino : Nat) (children : Forest)
  | denied
inductive Forest : Type
  | nil
  | cons (name : String) (tree : FsTree) (rest : Forest)
end

/-- The execution flags of `struct Options` (src/main.rs:29-33). -/
structure Options where
  verbosity : Nat
  unlink : Bool
  dry_run : Bool

/-- Failure modes of a metadata read. Any error other than `notFound`
(`ENOENT`) is represented by `permissionDenied`. -/
inductive IOErr : Type
  | notFound
  | permissionDenied
deriving DecidableEq

/-- The part of `std::fs::Metadata` the program reads: `dev()`, `ino()`
(src/main.rs:261) and `is_file()` (src/main.rs:275). -/
structure Meta where
  dev : Nat
  ino : Nat
  isFile : Bool
deriving DecidableEq

/-- `path.metadata()`: fails with `notFound` on a nonexistent path,
with `permissionDenied` on a `denied` node, and otherwise reports the
resolved node's device, inode and file/directory kind. -/
def metadata : Option FsTree → Except IOErr Meta
  | none => Except.error IOErr.notFound
  | some (FsTree.file d i) => Except.ok ⟨d, i, true⟩
  | some (FsTree.dir d i _) => Except.ok ⟨d, i, false⟩
  | some FsTree.denied => Except.error IOErr.permissionDenied

/-- The identity comparison of the merge engine: the first match arm of
`symlink_or_descend` (src/main.rs:260-261),
`(Ok(a), Ok(b)) if a.ino() == b.ino() && a.dev() == b.dev()`.
Falling through to a later arm is `false`. -/
def same_object (link original : Option FsTree) : Bool :=
  match metadata link, metadata original with
  | Except.ok a, Except.ok b => decide (a.ino = b.ino) && decide (a.dev = b.dev)
  | _, _ => false

/-- `original.read_dir()`: succeeds exactly on directories. -/
def readDir : FsTree → Option Forest
  | FsTree.dir _ _ cs => some cs
  | _ => none

/-- One line of console output. Each constructor corresponds to one
`println!` format string in src/main.rs; the payload is the data
interpolated into it. -/
inductive Report : Type
  | dryRunBanner
  | pkgBanner (unlink : Bool) (name : String) (path : Path)
  | removing (link : Path)
  | skippingPreexisting (link : Path)
  | descending (link : Path)
  | linking (link : Path) (original : Path)
  | skippingNonexistent (link : Path)
deriving DecidableEq

/-- An actual filesystem mutation performed by the engine. -/
inductive Mutation : Type
  | created (link : Path)
  | removed (link : Path)
deriving DecidableEq

/-- The errors `symlink_or_descend` and `descend_and_symlink` can raise,
with exactly the data their `bail!`/`context` messages carry.
`unableToRemove` (src/main.rs:266, context "Unable to remove symlink")
carries no path, mirroring the source; it is unreachable in this model
because resolved-view removal always succeeds. -/
inductive MergeErr : Type
  | alreadyExists (link : Path)
  | unableToDescend (original : Path)
  | unableToSymlink (link : Path) (original : Path)
  | unableToRemove
deriving DecidableEq

/-- Result of one `symlink_or_descend` call: the error (if any — on error
the mutations already performed persist, as with Rust's `?`), the new
destination state at the call's link path, the console output, and the
mutations performed. -/
structure MergeOut where
  err : Option MergeErr
  dest : Option FsTree
  reports : List Report
  muts : List Mutation

/-- Result of the loop of `descend_and_symlink` over the children. -/
structure ChildrenOut where
  err : Option MergeErr
  children : Forest
  reports : List Report
  muts : List Mutation

/-- Look a child up by name (the filesystem's name resolution under a
destination directory). -/
def Forest.lookup (n : String) : Forest → Option FsTree
  | Forest.nil => none
  | Forest.cons m t rest => if m = n then some t else Forest.lookup n rest

/-- Replace the child named `n` (or add it, if absent). -/
def Forest.update (n : String) (v : FsTree) : Forest → Forest
  | Forest.nil => Forest.cons n v Forest.nil
  | Forest.cons m t rest =>
    if m = n then Forest.cons m v rest else Forest.cons m t (Forest.update n v rest)

/-- Remove the (first) child named `n`, if present. -/
def Forest.remove (n : String) : Forest → Forest
  | Forest.nil => Forest.nil
  | Forest.cons m t rest =>
    if m = n then rest else Forest.cons m t (Forest.remove n rest)

/-- Write back the destination state of child `n` after its merge:
`none` means the path does not exist (any pre-existing child was
removed), `some t` that it now holds `t`. -/
def Forest.setChild (n : String) : Option FsTree → Forest → Forest
  | none, f => Forest.remove n f
  | some t, f => Forest.update n t f

/-- `true` iff no child is named `n`. -/
def Forest.keyFree (n : String) : Forest → Bool
  | Forest.nil => true
  | Forest.cons m _ rest => if m = n then false else Forest.keyFree n rest

/-- `true` iff all child names are pairwise distinct (as `read_dir` on a
real directory guarantees). -/
def Forest.nodupKeys : Forest → Bool
  | Forest.nil => true
  | Forest.cons m _ rest => Forest.keyFree m rest && Forest.nodupKeys rest

mutual
/-- A tree that a real filesystem walk can produce and fully observe:
no `denied` nodes (every metadata read succeeds) and no duplicate child
names. -/
def FsTree.okTree : FsTree → Bool
  | FsTree.file _ _ => true
  | FsTree.dir _ _ cs => Forest.nodupKeys cs && Forest.okForest cs
  | FsTree.denied => false
def Forest.okForest : Forest → Bool
  | Forest.nil => true
  | Forest.cons _ t rest => FsTree.okTree t && Forest.okForest rest
end

mutual
/-- Child names pairwise distinct in every directory of the tree — as
`read_dir` guarantees for any tree walked off a real filesystem — with
no observability requirement (`denied` nodes are allowed). -/
def FsTree.namesNodup : FsTree → Bool
  | FsTree.file _ _ => true
  | FsTree.dir _ _ cs => Forest.nodupKeys cs && Forest.namesNodupForest cs
  | FsTree.denied => true
def Forest.namesNodupForest : Forest → Bool
  | Forest.nil => true
  | Forest.cons _ t rest => FsTree.namesNodup t && Forest.namesNodupForest rest
end

/-- The destination/source paths interpolated into each error's message,
read off the `bail!`/`context` format strings of the source:
`"{} already exists"` (src/main.rs:276), `"Unable to descend into {}"`
(src/main.rs:248), `"Unable to symlink {} => {}"` (src/main.rs:293-297),
and `"Unable to remove symlink"` (src/main.rs:266), which interpolates
no path at all. -/
def MergeErr.pathsInMessage : MergeErr → List Path
  | MergeErr.alreadyExists l => [l]
  | MergeErr.unableToDescend o => [o]
  | MergeErr.unableToSymlink l o => [l, o]
  | MergeErr.unableToRemove => []

mutual
/-- `symlink_or_descend` (src/main.rs:259-307). Arguments: the source
subtree `orig` and its path `origPath`, the destination state `dest` at
path `destPath`. The dispatch mirrors the source's match on
`(link.metadata(), original.metadata())`:
the guarded first arm is the `same_object` test; the second arm
(`(Ok(link_metadata), _)`) is the match on an existing (`file`/`dir`)
destination — `bail!("{} already exists")` on a file, otherwise descend
(`read_dir` of the source is inlined as the match on `orig`, failing on
non-directories with the "Unable to descend into {}" context of
src/main.rs:246-248); the wildcard arm (destination metadata read
failed: nonexistent or `denied`) creates the link unless `unlink` or
`dry_run`, where creating over a `denied` path fails as the OS call
would, with the "Unable to symlink {} => {}" context. -/
def symlink_or_descend (opts : Options) (orig : FsTree) (origPath : Path)
    (dest : Option FsTree) (destPath : Path) : MergeOut :=
  if same_object dest (some orig) then
    if opts.unlink then
      { err := none
        dest := if opts.dry_run then dest else none
        reports := [Report.removing destPath]
        muts := if opts.dry_run then [] else [Mutation.removed destPath] }
    else
      { err := none, dest := dest
        reports := if opts.verbosity > 0 then [Report.skippingPreexisting destPath] else []
        muts := [] }
  else
    match dest with
    | some (FsTree.file fd fi) =>
      { err := some (MergeErr.alreadyExists destPath), dest := some (FsTree.file fd fi)
        reports := [], muts := [] }
    | some (FsTree.dir dd di dcs) =>
      match orig with
      | FsTree.dir _ _ ocs =>
        let g := go_children opts ocs origPath destPath dcs
        { err := g.err, dest := some (FsTree.dir dd di g.children)
          reports := (if opts.verbosity > 0 then [Report.descending destPath] else [])
            ++ g.reports
          muts := g.muts }
      | _ =>
        { err := some (MergeErr.unableToDescend origPath)
          dest := some (FsTree.dir dd di dcs)
          reports := if opts.verbosity > 0 then [Report.descending destPath] else []
          muts := [] }
    | _ =>
      if opts.unlink then
        { err := none, dest := dest
          reports := if opts.verbosity > 0 then [Report.skippingNonexistent destPath] else []
          muts := [] }
      else
        match dest with
        | none =>
          if opts.dry_run then
            { err := none, dest := none, reports := [Report.linking destPath origPath]
              muts := [] }
          else
            { err := none, dest := some orig, reports := [Report.linking destPath origPath]
              muts := [Mutation.created destPath] }
        | some d =>
          if opts.dry_run then
            { err := none, dest := some d, reports := [Report.linking destPath origPath]
              muts := [] }
          else
            { err := some (MergeErr.unableToSymlink destPath origPath), dest := some d
              reports := [Report.linking destPath origPath], muts := [] }

/-- The loop of `descend_and_symlink` (src/main.rs:246-253): for each
source child, merge it into the destination child of the same name
(`entry.path()` against `link.join(entry.file_name())`); the `?`
propagates the first error, keeping earlier effects. -/
def go_children (opts : Options) (cs : Forest) (origPath destPath : Path)
    (ds : Forest) : ChildrenOut :=
  match cs with
  | Forest.nil => { err := none, children := ds, reports := [], muts := [] }
  | Forest.cons n t rest =>
    let c := symlink_or_descend opts t (origPath ++ [n]) (Forest.lookup n ds) (destPath ++ [n])
    let ds1 := Forest.setChild n c.dest ds
    match c.err with
    | some e => { err := some e, children := ds1, reports := c.reports, muts := c.muts }
    | none =>
      let g := go_children opts rest origPath destPath ds1
      { err := g.err, children := g.children, reports := c.reports ++ g.reports
        muts := c.muts ++ g.muts }
end

example :
    symlink_or_descend ⟨0, false, false⟩ (FsTree.file 0 1) ["s"] none ["d"]
      = ⟨none, some (FsTree.file 0 1), [Report.linking ["d"] ["s"]],
         [Mutation.created ["d"]]⟩ := rfl

example :
    (symlink_or_descend ⟨0, false, false⟩ (FsTree.file 0 1) ["s"]
      (some (FsTree.file 0 1)) ["d"]).reports = [] := rfl

/-! ## Induction principles for the mutual tree/forest type -/

/-- Simultaneous induction over `FsTree` and `Forest`. -/
theorem merge_mutual_induction {P : FsTree → Prop} {Q : Forest → Prop}
    (hfile : ∀ d i, P (FsTree.file d i))
    (hdir : ∀ d i cs, Q cs → P (FsTree.dir d i cs))
    (hdenied : P FsTree.denied)
    (hnil : Q Forest.nil)
    (hcons : ∀ n t rest, P t → Q rest → Q (Forest.cons n t rest)) :
    (∀ t, P t) ∧ (∀ f, Q f) :=
  ⟨@FsTree.rec P Q hfile hdir hdenied hnil hcons,
   @Forest.rec P Q hfile hdir hdenied hnil hcons⟩

/-- Induction over a `Forest` alone (its trees are not recursed into). -/
@[induction_eliminator]
theorem Forest.inductionOn {motive : Forest → Prop}
    (hnil : motive Forest.nil)
    (hcons : ∀ n t rest, motive rest → motive (Forest.cons n t rest))
    (f : Forest) : motive f :=
  (@merge_mutual_induction (fun _ => True) motive (fun _ _ => trivial)
    (fun _ _ _ _ => trivial) trivial hnil (fun n t rest _ ih => hcons n t rest ih)).2 f

/-! ## Association-list lemmas -/

theorem Forest.lookup_update_self (n : String) (v : FsTree) (f : Forest) :
    Forest.lookup n (Forest.update n v f) = some v := by
  induction f with
  | hnil => simp [Forest.update, Forest.lookup]
  | hcons m t rest ih =>
    by_cases h : m = n
    · simp [Forest.update, Forest.lookup, h]
    · simp [Forest.update, Forest.lookup, h, ih]

theorem Forest.lookup_update_other (x n : String) (v : FsTree) (f : Forest)
    (h : x ≠ n) : Forest.lookup x (Forest.update n v f) = Forest.lookup x f := by
  induction f with
  | hnil => simp [Forest.update, Forest.lookup, Ne.symm h]
  | hcons m t rest ih =>
    by_cases hm : m = n
    · subst hm
      simp [Forest.update, Forest.lookup, Ne.symm h]
    · by_cases hx : m = x
      · simp [Forest.update, Forest.lookup, hm, hx, h]
      · simp [Forest.update, Forest.lookup, hm, hx, ih]

theorem Forest.lookup_remove_other (x n : String) (f : Forest) (h : x ≠ n) :
    Forest.lookup x (Forest.remove n f) = Forest.lookup x f := by
  induction f with
  | hnil => simp [Forest.remove]
  | hcons m t rest ih =>
    by_cases hm : m = n
    · subst hm
      simp [Forest.remove, Forest.lookup, Ne.symm h]
    · by_cases hx : m = x
      · simp [Forest.remove, Forest.lookup, hm, hx, h]
      · simp [Forest.remove, Forest.lookup, hm, hx, ih]

theorem Forest.lookup_setChild_other (x n : String) (v : Option FsTree) (f : Forest)
    (h : x ≠ n) : Forest.lookup x (Forest.setChild n v f) = Forest.lookup x f := by
  cases v with
  | none => exact Forest.lookup_remove_other x n f h
  | some t => exact Forest.lookup_update_other x n t f h

theorem Forest.update_id (n : String) (v : FsTree) (f : Forest)
    (h : Forest.lookup n f = some v) : Forest.update n v f = f := by
  induction f with
  | hnil => simp [Forest.lookup] at h
  | hcons m t rest ih =>
    by_cases hm : m = n
    · subst hm
      simp [Forest.lookup] at h
      simp [Forest.update, h]
    · simp [Forest.lookup, hm] at h
      simp [Forest.update, hm, ih h]

theorem Forest.remove_id (n : String) (f : Forest)
    (h : Forest.lookup n f = none) : Forest.remove n f = f := by
  induction f with
  | hnil => simp [Forest.remove]
  | hcons m t rest ih =>
    by_cases hm : m = n
    · subst hm
      simp [Forest.lookup] at h
    · simp [Forest.lookup, hm] at h
      simp [Forest.remove, hm, ih h]

theorem Forest.setChild_id (n : String) (v : Option FsTree) (f : Forest)
    (h : Forest.lookup n f = v) : Forest.setChild n v f = f := by
  cases v with
  | none => exact Forest.remove_id n f h
  | some t => exact Forest.update_id n t f h

theorem Forest.lookup_setChild_some_self (n : String) (t : FsTree) (f : Forest) :
    Forest.lookup n (Forest.setChild n (some t) f) = some t :=
  Forest.lookup_update_self n t f

/-- `go_children` never touches a destination child whose name does not
occur among the source children. -/
theorem go_children_frame (opts : Options) (cs : Forest) (origPath destPath : Path)
    (ds : Forest) (x : String) (hx : Forest.keyFree x cs = true) :
    Forest.lookup x (go_children opts cs origPath destPath ds).children
      = Forest.lookup x ds := by
  induction cs generalizing ds with
  | hnil => simp [go_children]
  | hcons n t rest ih =>
    have hxn : ¬(n = x) := by
      intro h
      subst h
      simp [Forest.keyFree] at hx
    have hx' : Forest.keyFree x rest = true := by
      simpa [Forest.keyFree, hxn] using hx
    have hset : ∀ v ds', Forest.lookup x (Forest.setChild n v ds') = Forest.lookup x ds' :=
      fun v ds' => Forest.lookup_setChild_other x n v ds' (fun h => hxn h.symm)
    simp only [go_children]
    cases hcerr : (symlink_or_descend opts t (origPath ++ [n]) (Forest.lookup n ds)
        (destPath ++ [n])).err with
    | some e =>
      simp only [hcerr]
      exact hset _ ds
    | none =>
      simp only [hcerr]
      exact (ih _ hx').trans (hset _ ds)

/-! ## Basic facts about the identity comparison and the create branch -/

theorem same_object_none_left (b : Option FsTree) : same_object none b = false := by
  cases b with
  | none => rfl
  | some t => cases t <;> rfl

theorem same_object_denied_left (b : Option FsTree) :
    same_object (some FsTree.denied) b = false := by
  cases b with
  | none => rfl
  | some t => cases t <;> rfl

theorem same_object_denied_right (a : Option FsTree) :
    same_object a (some FsTree.denied) = false := by
  cases a with
  | none => rfl
  | some t => cases t <;> rfl

theorem same_object_self (t : FsTree) (h : FsTree.okTree t = true) :
    same_object (some t) (some t) = true := by
  cases t with
  | file d i => simp [same_object, metadata]
  | dir d i cs => simp [same_object, metadata]
  | denied => simp [FsTree.okTree] at h

/-- The "destination does not exist" branch in linking mode: a symlink is
created (or, in dry-run mode, only reported). -/
theorem create_branch (opts : Options) (orig : FsTree) (origPath destPath : Path)
    (hu : opts.unlink = false) :
    symlink_or_descend opts orig origPath none destPath
      = if opts.dry_run then
          ⟨none, none, [Report.linking destPath origPath], []⟩
        else
          ⟨none, some orig, [Report.linking destPath origPath],
           [Mutation.created destPath]⟩ := by
  rw [symlink_or_descend]
  rw [same_object_none_left]
  by_cases hd : opts.dry_run = true
  · simp [hu, hd]
  · simp only [Bool.not_eq_true] at hd
    simp [hu, hd]

/-- The "destination does not exist" branch in unlink mode: nothing to
remove, report at nonzero verbosity, no mutation. -/
theorem unlink_missing_branch (opts : Options) (orig : FsTree) (origPath destPath : Path)
    (hu : opts.unlink = true) :
    symlink_or_descend opts orig origPath none destPath
      = ⟨none, none,
         if opts.verbosity > 0 then [Report.skippingNonexistent destPath] else [], []⟩ := by
  rw [symlink_or_descend]
  rw [same_object_none_left]
  simp [hu]

/-! ## Dry-run never changes the destination and performs no mutation -/

theorem dry_run_preserves :
    (∀ t : FsTree, ∀ (opts : Options) (op : Path) (d : Option FsTree) (dp : Path),
      opts.dry_run = true →
      (symlink_or_descend opts t op d dp).dest = d
        ∧ (symlink_or_descend opts t op d dp).muts = [])
    ∧ (∀ f : Forest, ∀ (opts : Options) (op dp : Path) (ds : Forest),
      opts.dry_run = true →
      (go_children opts f op dp ds).children = ds
        ∧ (go_children opts f op dp ds).muts = []) := by
  apply merge_mutual_induction
  case hfile =>
    intro dv i opts op d dp hdry
    rw [symlink_or_descend.eq_def]
    by_cases hso : same_object d (some (FsTree.file dv i)) = true
    · by_cases hul : opts.unlink = true <;> simp [hso, hdry, hul]
    · simp only [Bool.not_eq_true] at hso
      rcases d with _ | td
      · by_cases hul : opts.unlink = true <;> simp [hso, hdry, hul]
      · cases td <;> by_cases hul : opts.unlink = true <;> simp [hso, hdry, hul]
  case hdir =>
    intro dv i cs ih opts op d dp hdry
    rw [symlink_or_descend.eq_def]
    by_cases hso : same_object d (some (FsTree.dir dv i cs)) = true
    · by_cases hul : opts.unlink = true <;> simp [hso, hdry, hul]
    · simp only [Bool.not_eq_true] at hso
      rcases d with _ | td
      · by_cases hul : opts.unlink = true <;> simp [hso, hdry, hul]
      · cases td with
        | file fd fi => by_cases hul : opts.unlink = true <;> simp [hso, hdry, hul]
        | dir dd di dcs =>
          have hih := ih opts op dp dcs hdry
          simp [hso, hdry, hih.1, hih.2]
        | denied => by_cases hul : opts.unlink = true <;> simp [hso, hdry, hul]
  case hdenied =>
    intro opts op d dp hdry
    rw [symlink_or_descend.eq_def]
    by_cases hso : same_object d (some FsTree.denied) = true
    · by_cases hul : opts.unlink = true <;> simp [hso, hdry, hul]
    · simp only [Bool.not_eq_true] at hso
      rcases d with _ | td
      · by_cases hul : opts.unlink = true <;> simp [hso, hdry, hul]
      · cases td <;> by_cases hul : opts.unlink = true <;> simp [hso, hdry, hul]
  case hnil =>
    intro opts op dp ds _
    simp [go_children]
  case hcons =>
    intro n t rest iht ihf opts op dp ds hdry
    have hc := iht opts (op ++ [n]) (Forest.lookup n ds) (dp ++ [n]) hdry
    have hds1 : Forest.setChild n
        (symlink_or_descend opts t (op ++ [n]) (Forest.lookup n ds) (dp ++ [n])).dest ds
        = ds := by
      rw [hc.1]
      exact Forest.setChild_id n _ ds rfl
    rw [go_children]
    cases hcerr : (symlink_or_descend opts t (op ++ [n]) (Forest.lookup n ds)
        (dp ++ [n])).err with
    | some e => simp [hcerr, hds1, hc.2]
    | none =>
      have hg := ihf opts op dp ds hdry
      simp [hcerr, hds1, hc.2, hg.1, hg.2]

/-! ## Branch characterizations of `symlink_or_descend` -/

/-- Destination exists as a directory, not the same object as the (directory)
source: the merge-point branch, recursing over the source's children. -/
theorem descend_branch (opts : Options) (od oi dd di : Nat) (ocs dcs : Forest)
    (op dp : Path)
    (h : same_object (some (FsTree.dir dd di dcs)) (some (FsTree.dir od oi ocs)) = false) :
    symlink_or_descend opts (FsTree.dir od oi ocs) op (some (FsTree.dir dd di dcs)) dp
      = ⟨(go_children opts ocs op dp dcs).err,
         some (FsTree.dir dd di (go_children opts ocs op dp dcs).children),
         (if opts.verbosity > 0 then [Report.descending dp] else [])
           ++ (go_children opts ocs op dp dcs).reports,
         (go_children opts ocs op dp dcs).muts⟩ := by
  rw [symlink_or_descend.eq_def]
  simp [h]

/-- Destination exists as a regular file, not the same object as the source:
the conflict branch. Nothing is reported, nothing is mutated, the error
names the destination path. -/
theorem conflict_branch (opts : Options) (orig : FsTree) (op : Path)
    (fd fi : Nat) (dp : Path)
    (h : same_object (some (FsTree.file fd fi)) (some orig) = false) :
    symlink_or_descend opts orig op (some (FsTree.file fd fi)) dp
      = ⟨some (MergeErr.alreadyExists dp), some (FsTree.file fd fi), [], []⟩ := by
  rw [symlink_or_descend.eq_def]
  simp [h]

/-- Destination exists as a directory but the source is a regular file (and
they are not the same object): `read_dir` on the source fails and the
"Unable to descend into {}" error carries the source path. -/
theorem descend_file_branch (opts : Options) (op : Path) (od oi dd di : Nat)
    (dcs : Forest) (dp : Path)
    (h : same_object (some (FsTree.dir dd di dcs)) (some (FsTree.file od oi)) = false) :
    symlink_or_descend opts (FsTree.file od oi) op (some (FsTree.dir dd di dcs)) dp
      = ⟨some (MergeErr.unableToDescend op), some (FsTree.dir dd di dcs),
         if opts.verbosity > 0 then [Report.descending dp] else [], []⟩ := by
  rw [symlink_or_descend.eq_def]
  simp [h]

/-- Destination exists as a directory but the source's metadata read
fails (and so the identity guard does): `read_dir` on the source fails
and the "Unable to descend into {}" error carries the source path. -/
theorem descend_denied_branch (opts : Options) (op : Path) (dd di : Nat)
    (dcs : Forest) (dp : Path) :
    symlink_or_descend opts FsTree.denied op (some (FsTree.dir dd di dcs)) dp
      = ⟨some (MergeErr.unableToDescend op), some (FsTree.dir dd di dcs),
         if opts.verbosity > 0 then [Report.descending dp] else [], []⟩ := by
  rw [symlink_or_descend.eq_def]
  rw [same_object_denied_right]
  simp

/-- Destination metadata fails with an error other than not-found, linking
mode, no dry-run: the wildcard arm is taken (treated as nonexistent) and
the attempted symlink creation fails with the "Unable to symlink" context
naming both paths. -/
theorem denied_dest_link (opts : Options) (orig : FsTree) (op dp : Path)
    (hu : opts.unlink = false) (hd : opts.dry_run = false) :
    symlink_or_descend opts orig op (some FsTree.denied) dp
      = ⟨some (MergeErr.unableToSymlink dp op), some FsTree.denied,
         [Report.linking dp op], []⟩ := by
  rw [symlink_or_descend.eq_def]
  rw [same_object_denied_left]
  simp [hu, hd]

/-- Destination metadata fails with an error other than not-found, unlink
mode: the wildcard arm is taken and the failure is silently swallowed
(only the nonzero-verbosity "Skipping non-existent file" diagnostic). -/
theorem denied_dest_unlink (opts : Options) (orig : FsTree) (op dp : Path)
    (hu : opts.unlink = true) :
    symlink_or_descend opts orig op (some FsTree.denied) dp
      = ⟨none, some FsTree.denied,
         if opts.verbosity > 0 then [Report.skippingNonexistent dp] else [], []⟩ := by
  rw [symlink_or_descend.eq_def]
  rw [same_object_denied_left]
  simp [hu]

/-- Destination metadata fails with an error other than not-found, linking
mode with dry-run: the action is reported as if the destination were
nonexistent and no error surfaces. -/
theorem denied_dest_dry (opts : Options) (orig : FsTree) (op dp : Path)
    (hu : opts.unlink = false) (hd : opts.dry_run = true) :
    symlink_or_descend opts orig op (some FsTree.denied) dp
      = ⟨none, some FsTree.denied, [Report.linking dp op], []⟩ := by
  rw [symlink_or_descend.eq_def]
  rw [same_object_denied_left]
  simp [hu, hd]

/-- The skip branch: destination already the same object, linking mode. -/
theorem skip_branch (opts : Options) (orig : FsTree) (op : Path)
    (d : Option FsTree) (dp : Path)
    (h : same_object d (some orig) = true) (hu : opts.unlink = false) :
    symlink_or_descend opts orig op d dp
      = ⟨none, d,
         if opts.verbosity > 0 then [Report.skippingPreexisting dp] else [], []⟩ := by
  rw [symlink_or_descend.eq_def]
  simp [h, hu]

/-- The remove branch: destination already the same object, unlink mode. -/
theorem remove_branch (opts : Options) (orig : FsTree) (op : Path)
    (d : Option FsTree) (dp : Path)
    (h : same_object d (some orig) = true) (hu : opts.unlink = true) :
    symlink_or_descend opts orig op d dp
      = if opts.dry_run then ⟨none, d, [Report.removing dp], []⟩
        else ⟨none, none, [Report.removing dp], [Mutation.removed dp]⟩ := by
  rw [symlink_or_descend.eq_def]
  by_cases hd : opts.dry_run = true
  · simp [h, hu, hd]
  · simp only [Bool.not_eq_true] at hd
    simp [h, hu, hd]

/-- In linking (non-dry-run) mode, a source child whose name is absent from
the destination directory ends up linked there, while processing its
siblings leaves it untouched. -/
theorem go_children_new (v : Nat) (cs : Forest) (op dp : Path) (ds : Forest)
    (n : String) (t : FsTree)
    (hnodup : Forest.nodupKeys cs = true)
    (hn : Forest.lookup n cs = some t)
    (hmiss : Forest.lookup n ds = none)
    (herr : (go_children ⟨v, false, false⟩ cs op dp ds).err = none) :
    Forest.lookup n (go_children ⟨v, false, false⟩ cs op dp ds).children = some t := by
  induction cs generalizing ds with
  | hnil => simp [Forest.lookup] at hn
  | hcons m s rest ih =>
    have hnodup' : Forest.keyFree m rest = true ∧ Forest.nodupKeys rest = true := by
      simpa [Forest.nodupKeys, Bool.and_eq_true] using hnodup
    by_cases hm : m = n
    · subst hm
      have hts : t = s := by
        simp [Forest.lookup] at hn
        exact hn.symm
      subst hts
      have hc : symlink_or_descend ⟨v, false, false⟩ t (op ++ [m]) (Forest.lookup m ds)
          (dp ++ [m])
          = ⟨none, some t, [Report.linking (dp ++ [m]) (op ++ [m])],
             [Mutation.created (dp ++ [m])]⟩ := by
        rw [hmiss]
        rw [create_branch ⟨v, false, false⟩ t (op ++ [m]) (dp ++ [m]) rfl]
        simp
      rw [go_children, hc]
      simp only
      rw [go_children_frame _ _ _ _ _ _ hnodup'.1]
      exact Forest.lookup_setChild_some_self m t ds
    · have hn' : Forest.lookup n rest = some t := by
        simpa [Forest.lookup, hm] using hn
      rw [go_children] at herr ⊢
      cases hcerr : (symlink_or_descend ⟨v, false, false⟩ s (op ++ [m])
          (Forest.lookup m ds) (dp ++ [m])).err with
      | some e => simp [hcerr] at herr
      | none =>
        simp only [hcerr] at herr ⊢
        have hmiss1 : Forest.lookup n
            (Forest.setChild m (symlink_or_descend ⟨v, false, false⟩ s (op ++ [m])
              (Forest.lookup m ds) (dp ++ [m])).dest ds) = none := by
          rw [Forest.lookup_setChild_other n m _ ds (fun hh => hm hh.symm)]
          exact hmiss
        exact ih _ hnodup'.2 hn' hmiss1 (by simpa using herr)

/-! ## Idempotence of linking mode -/

theorem same_object_isSome (d b : Option FsTree) (h : same_object d b = true) :
    ∃ dt, d = some dt := by
  cases d with
  | none => rw [same_object_none_left] at h; cases h
  | some dt => exact ⟨dt, rfl⟩

/-- The identity comparison ignores a directory's children: only device
and inode are read. -/
theorem same_object_dir_congr (dd di : Nat) (xs ys : Forest) (b : Option FsTree) :
    same_object (some (FsTree.dir dd di xs)) b
      = same_object (some (FsTree.dir dd di ys)) b := by
  cases b with
  | none => rfl
  | some t => cases t <;> simp [same_object, metadata]

theorem ok_lookup (f : Forest) (n : String) (t : FsTree)
    (hf : Forest.okForest f = true) (h : Forest.lookup n f = some t) :
    FsTree.okTree t = true := by
  induction f with
  | hnil => simp [Forest.lookup] at h
  | hcons m s rest ih =>
    have hf' : FsTree.okTree s = true ∧ Forest.okForest rest = true := by
      simpa [Forest.okForest, Bool.and_eq_true] using hf
    by_cases hm : m = n
    · simp [Forest.lookup, hm] at h
      exact h ▸ hf'.1
    · simp [Forest.lookup, hm] at h
      exact ih hf'.2 h

/-- A successful linking-mode (non-dry-run) merge of a well-formed source
leaves the destination existing. -/
theorem dest_some_of_ok (v : Nat) (t : FsTree) (op : Path) (d : Option FsTree)
    (dp : Path) (hok : FsTree.okTree t = true)
    (herr : (symlink_or_descend ⟨v, false, false⟩ t op d dp).err = none) :
    ∃ ct, (symlink_or_descend ⟨v, false, false⟩ t op d dp).dest = some ct := by
  by_cases hso : same_object d (some t) = true
  · obtain ⟨dt, rfl⟩ := same_object_isSome d (some t) hso
    rw [skip_branch _ t op _ dp hso rfl]
    exact ⟨dt, rfl⟩
  · simp only [Bool.not_eq_true] at hso
    cases d with
    | none =>
      rw [create_branch _ t op dp rfl]
      exact ⟨t, by simp⟩
    | some dt =>
      cases dt with
      | file fd fi => rw [conflict_branch _ t op fd fi dp hso] at herr; cases herr
      | dir dd di dcs =>
        cases t with
        | file od oi => rw [descend_file_branch _ op od oi dd di dcs dp hso] at herr; cases herr
        | dir od oi ocs =>
          rw [descend_branch _ od oi dd di ocs dcs op dp hso]
          exact ⟨_, rfl⟩
        | denied => simp [FsTree.okTree] at hok
      | denied => rw [denied_dest_link _ t op dp rfl rfl] at herr; cases herr

/-- Simultaneous statement of idempotence: after a successful linking-mode
run, re-running from the resulting destination state succeeds, changes
nothing and performs zero mutations. -/
theorem idem_pair :
    (∀ t : FsTree, ∀ (v : Nat) (op : Path) (d : Option FsTree) (dp : Path),
      FsTree.okTree t = true →
      (symlink_or_descend ⟨v, false, false⟩ t op d dp).err = none →
      (symlink_or_descend ⟨v, false, false⟩ t op
          (symlink_or_descend ⟨v, false, false⟩ t op d dp).dest dp).err = none
        ∧ (symlink_or_descend ⟨v, false, false⟩ t op
            (symlink_or_descend ⟨v, false, false⟩ t op d dp).dest dp).dest
          = (symlink_or_descend ⟨v, false, false⟩ t op d dp).dest
        ∧ (symlink_or_descend ⟨v, false, false⟩ t op
            (symlink_or_descend ⟨v, false, false⟩ t op d dp).dest dp).muts = [])
    ∧ (∀ f : Forest, ∀ (v : Nat) (op dp : Path) (ds : Forest),
      Forest.okForest f = true → Forest.nodupKeys f = true →
      (go_children ⟨v, false, false⟩ f op dp ds).err = none →
      (go_children ⟨v, false, false⟩ f op dp
          (go_children ⟨v, false, false⟩ f op dp ds).children).err = none
        ∧ (go_children ⟨v, false, false⟩ f op dp
            (go_children ⟨v, false, false⟩ f op dp ds).children).children
          = (go_children ⟨v, false, false⟩ f op dp ds).children
        ∧ (go_children ⟨v, false, false⟩ f op dp
            (go_children ⟨v, false, false⟩ f op dp ds).children).muts = []) := by
  apply merge_mutual_induction
  case hfile =>
    intro dv i v op d dp hok herr
    by_cases hso : same_object d (some (FsTree.file dv i)) = true
    · rw [skip_branch _ _ op d dp hso rfl]
      simp only
      rw [skip_branch _ _ op d dp hso rfl]
      exact ⟨rfl, rfl, rfl⟩
    · simp only [Bool.not_eq_true] at hso
      cases d with
      | none =>
        rw [create_branch _ _ op dp rfl]
        simp only [Bool.false_eq_true, if_false]
        rw [skip_branch _ _ op _ dp (same_object_self _ hok) rfl]
        exact ⟨rfl, rfl, rfl⟩
      | some dt =>
        cases dt with
        | file fd fi => rw [conflict_branch _ _ op fd fi dp hso] at herr; cases herr
        | dir dd di dcs =>
          rw [descend_file_branch _ op dv i dd di dcs dp hso] at herr
          cases herr
        | denied => rw [denied_dest_link _ _ op dp rfl rfl] at herr; cases herr
  case hdir =>
    intro dv i cs ih v op d dp hok herr
    have hok' : Forest.nodupKeys cs = true ∧ Forest.okForest cs = true := by
      simpa [FsTree.okTree, Bool.and_eq_true] using hok
    by_cases hso : same_object d (some (FsTree.dir dv i cs)) = true
    · rw [skip_branch _ _ op d dp hso rfl]
      simp only
      rw [skip_branch _ _ op d dp hso rfl]
      exact ⟨rfl, rfl, rfl⟩
    · simp only [Bool.not_eq_true] at hso
      cases d with
      | none =>
        rw [create_branch _ _ op dp rfl]
        simp only [Bool.false_eq_true, if_false]
        rw [skip_branch _ _ op _ dp (same_object_self _ hok) rfl]
        exact ⟨rfl, rfl, rfl⟩
      | some dt =>
        cases dt with
        | file fd fi => rw [conflict_branch _ _ op fd fi dp hso] at herr; cases herr
        | dir dd di dcs =>
          rw [descend_branch _ dv i dd di cs dcs op dp hso] at herr ⊢
          simp only at herr ⊢
          have hso2 : same_object
              (some (FsTree.dir dd di (go_children ⟨v, false, false⟩ cs op dp dcs).children))
              (some (FsTree.dir dv i cs)) = false := by
            rw [same_object_dir_congr dd di _ dcs]
            exact hso
          rw [descend_branch _ dv i dd di cs _ op dp hso2]
          have hrec := ih v op dp dcs hok'.2 hok'.1 herr
          exact ⟨hrec.1, by simp [hrec.2.1], hrec.2.2⟩
        | denied => rw [denied_dest_link _ _ op dp rfl rfl] at herr; cases herr
  case hdenied =>
    intro v op d dp hok herr
    simp [FsTree.okTree] at hok
  case hnil =>
    intro v op dp ds hokf hnodup herr
    simp [go_children]
  case hcons =>
    intro n s rest ihs ihf v op dp ds hokf hnodup herr
    have hokf' : FsTree.okTree s = true ∧ Forest.okForest rest = true := by
      simpa [Forest.okForest, Bool.and_eq_true] using hokf
    have hnodup' : Forest.keyFree n rest = true ∧ Forest.nodupKeys rest = true := by
      simpa [Forest.nodupKeys, Bool.and_eq_true] using hnodup
    rw [go_children] at herr
    cases hcerr : (symlink_or_descend ⟨v, false, false⟩ s (op ++ [n]) (Forest.lookup n ds)
        (dp ++ [n])).err with
    | some e => simp [hcerr] at herr
    | none =>
      simp only [hcerr] at herr
      obtain ⟨ct, hct⟩ := dest_some_of_ok v s (op ++ [n]) (Forest.lookup n ds) (dp ++ [n])
        hokf'.1 hcerr
      -- the state threaded to the remaining siblings after the first pass
      have hgerr : (go_children ⟨v, false, false⟩ rest op dp
          (Forest.setChild n (symlink_or_descend ⟨v, false, false⟩ s (op ++ [n])
            (Forest.lookup n ds) (dp ++ [n])).dest ds)).err = none := by
        simpa using herr
      -- the final children of the first pass
      have hchildren : (go_children ⟨v, false, false⟩ (Forest.cons n s rest) op dp ds).children
          = (go_children ⟨v, false, false⟩ rest op dp
              (Forest.setChild n (symlink_or_descend ⟨v, false, false⟩ s (op ++ [n])
                (Forest.lookup n ds) (dp ++ [n])).dest ds)).children := by
        rw [go_children]
        simp [hcerr]
      -- the first pass leaves child `n` holding the result of its merge
      have hlook : Forest.lookup n
          (go_children ⟨v, false, false⟩ (Forest.cons n s rest) op dp ds).children
          = some ct := by
        rw [hchildren]
        rw [go_children_frame _ _ _ _ _ _ hnodup'.1]
        rw [hct]
        exact Forest.lookup_setChild_some_self n ct ds
      -- second pass over the head child: apply the tree-level induction hypothesis
      have hihs := ihs v (op ++ [n]) (Forest.lookup n ds) (dp ++ [n]) hokf'.1 hcerr
      rw [hct] at hihs
      -- second pass: unfold over the final children of the first pass
      rw [go_children, hlook]
      cases hihs with
      | intro h1 h23 =>
        cases h23 with
        | intro h2 h3 =>
          rw [h1]
          simp only
          have hset : Forest.setChild n
              (symlink_or_descend ⟨v, false, false⟩ s (op ++ [n]) (some ct) (dp ++ [n])).dest
              (go_children ⟨v, false, false⟩ (Forest.cons n s rest) op dp ds).children
              = (go_children ⟨v, false, false⟩ (Forest.cons n s rest) op dp ds).children := by
            rw [h2]
            exact Forest.setChild_id n _ _ hlook
          rw [hset]
          have hihf := ihf v op dp
            (Forest.setChild n (symlink_or_descend ⟨v, false, false⟩ s (op ++ [n])
              (Forest.lookup n ds) (dp ++ [n])).dest ds) hokf'.2 hnodup'.2 hgerr
          rw [← hchildren] at hihf
          exact ⟨hihf.1, hihf.2.1, by simp [h3, hihf.2.2]⟩

/-! ## Dry-run reports coincide with the reports of a successful real run -/

theorem rep_eq_pair :
    (∀ t : FsTree, ∀ (v : Nat) (u : Bool) (op : Path) (d : Option FsTree) (dp : Path),
      FsTree.namesNodup t = true →
      (symlink_or_descend ⟨v, u, false⟩ t op d dp).err = none →
      (symlink_or_descend ⟨v, u, true⟩ t op d dp).reports
          = (symlink_or_descend ⟨v, u, false⟩ t op d dp).reports
        ∧ (symlink_or_descend ⟨v, u, true⟩ t op d dp).err = none)
    ∧ (∀ f : Forest, ∀ (v : Nat) (u : Bool) (op dp : Path) (ds ds' : Forest),
      Forest.namesNodupForest f = true → Forest.nodupKeys f = true →
      (∀ k, Forest.keyFree k f = false → Forest.lookup k ds = Forest.lookup k ds') →
      (go_children ⟨v, u, false⟩ f op dp ds').err = none →
      (go_children ⟨v, u, true⟩ f op dp ds).reports
          = (go_children ⟨v, u, false⟩ f op dp ds').reports
        ∧ (go_children ⟨v, u, true⟩ f op dp ds).err = none) := by
  apply merge_mutual_induction
  case hfile =>
    intro dv i v u op d dp hok herr
    by_cases hso : same_object d (some (FsTree.file dv i)) = true
    · cases u with
      | false =>
        rw [skip_branch _ _ op d dp hso rfl, skip_branch _ _ op d dp hso rfl]
        exact ⟨rfl, rfl⟩
      | true =>
        rw [remove_branch _ _ op d dp hso rfl, remove_branch _ _ op d dp hso rfl]
        simp
    · simp only [Bool.not_eq_true] at hso
      cases d with
      | none =>
        cases u with
        | false =>
          rw [create_branch _ _ op dp rfl, create_branch _ _ op dp rfl]
          simp
        | true =>
          rw [unlink_missing_branch _ _ op dp rfl, unlink_missing_branch _ _ op dp rfl]
          exact ⟨rfl, rfl⟩
      | some dt =>
        cases dt with
        | file fd fi => rw [conflict_branch _ _ op fd fi dp hso] at herr; cases herr
        | dir dd di dcs =>
          rw [descend_file_branch _ op dv i dd di dcs dp hso] at herr
          cases herr
        | denied =>
          cases u with
          | false => rw [denied_dest_link _ _ op dp rfl rfl] at herr; cases herr
          | true =>
            rw [denied_dest_unlink _ _ op dp rfl, denied_dest_unlink _ _ op dp rfl]
            exact ⟨rfl, rfl⟩
  case hdir =>
    intro dv i cs ih v u op d dp hok herr
    have hok' : Forest.nodupKeys cs = true ∧ Forest.namesNodupForest cs = true := by
      simpa [FsTree.namesNodup, Bool.and_eq_true] using hok
    by_cases hso : same_object d (some (FsTree.dir dv i cs)) = true
    · cases u with
      | false =>
        rw [skip_branch _ _ op d dp hso rfl, skip_branch _ _ op d dp hso rfl]
        exact ⟨rfl, rfl⟩
      | true =>
        rw [remove_branch _ _ op d dp hso rfl, remove_branch _ _ op d dp hso rfl]
        simp
    · simp only [Bool.not_eq_true] at hso
      cases d with
      | none =>
        cases u with
        | false =>
          rw [create_branch _ _ op dp rfl, create_branch _ _ op dp rfl]
          simp
        | true =>
          rw [unlink_missing_branch _ _ op dp rfl, unlink_missing_branch _ _ op dp rfl]
          exact ⟨rfl, rfl⟩
      | some dt =>
        cases dt with
        | file fd fi => rw [conflict_branch _ _ op fd fi dp hso] at herr; cases herr
        | dir dd di dcs =>
          rw [descend_branch ⟨v, u, false⟩ dv i dd di cs dcs op dp hso] at herr
          simp only at herr
          rw [descend_branch ⟨v, u, true⟩ dv i dd di cs dcs op dp hso,
            descend_branch ⟨v, u, false⟩ dv i dd di cs dcs op dp hso]
          have hF := ih v u op dp dcs dcs hok'.2 hok'.1 (fun k _ => rfl) herr
          exact ⟨by simp [hF.1], by simp [hF.2]⟩
        | denied =>
          cases u with
          | false => rw [denied_dest_link _ _ op dp rfl rfl] at herr; cases herr
          | true =>
            rw [denied_dest_unlink _ _ op dp rfl, denied_dest_unlink _ _ op dp rfl]
            exact ⟨rfl, rfl⟩
  case hdenied =>
    intro v u op d dp hok herr
    cases d with
    | none =>
      cases u with
      | false =>
        rw [create_branch _ _ op dp rfl, create_branch _ _ op dp rfl]
        simp
      | true =>
        rw [unlink_missing_branch _ _ op dp rfl, unlink_missing_branch _ _ op dp rfl]
        exact ⟨rfl, rfl⟩
    | some dt =>
      cases dt with
      | file fd fi =>
        rw [conflict_branch _ _ op fd fi dp (same_object_denied_right _)] at herr
        cases herr
      | dir dd di dcs =>
        rw [descend_denied_branch _ op dd di dcs dp] at herr
        cases herr
      | denied =>
        cases u with
        | false => rw [denied_dest_link _ _ op dp rfl rfl] at herr; cases herr
        | true =>
          rw [denied_dest_unlink _ _ op dp rfl, denied_dest_unlink _ _ op dp rfl]
          exact ⟨rfl, rfl⟩
  case hnil =>
    intro v u op dp ds ds' hokf hnodup hagree herr
    simp [go_children]
  case hcons =>
    intro n s rest ihs ihf v u op dp ds ds' hokf hnodup hagree herr
    have hokf' : FsTree.namesNodup s = true ∧ Forest.namesNodupForest rest = true := by
      simpa [Forest.namesNodupForest, Bool.and_eq_true] using hokf
    have hnodup' : Forest.keyFree n rest = true ∧ Forest.nodupKeys rest = true := by
      simpa [Forest.nodupKeys, Bool.and_eq_true] using hnodup
    have hn : Forest.lookup n ds = Forest.lookup n ds' := by
      apply hagree
      simp [Forest.keyFree]
    rw [go_children] at herr
    cases hcerr : (symlink_or_descend ⟨v, u, false⟩ s (op ++ [n]) (Forest.lookup n ds')
        (dp ++ [n])).err with
    | some e => simp [hcerr] at herr
    | none =>
      simp only [hcerr] at herr
      have hP := ihs v u (op ++ [n]) (Forest.lookup n ds') (dp ++ [n]) hokf'.1 hcerr
      have hagree' : ∀ k, Forest.keyFree k rest = false →
          Forest.lookup k (Forest.setChild n (symlink_or_descend ⟨v, u, true⟩ s (op ++ [n])
              (Forest.lookup n ds') (dp ++ [n])).dest ds)
            = Forest.lookup k (Forest.setChild n (symlink_or_descend ⟨v, u, false⟩ s (op ++ [n])
              (Forest.lookup n ds') (dp ++ [n])).dest ds') := by
        intro k hk
        have hkn : ¬(k = n) := by
          intro e
          subst e
          rw [hnodup'.1] at hk
          cases hk
        rw [Forest.lookup_setChild_other k n _ ds hkn]
        rw [Forest.lookup_setChild_other k n _ ds' hkn]
        apply hagree
        by_cases hnk : n = k
        · exact absurd hnk.symm hkn
        · simp [Forest.keyFree, hnk, hk]
      have hF := ihf v u op dp _ _ hokf'.2 hnodup'.2 hagree' (by simpa using herr)
      rw [go_children, go_children, hn, hcerr, hP.2]
      simp only
      exact ⟨by rw [hP.1, hF.1], by simp [hF.2]⟩

/-! ## Sequences of merge invocations -/

/-- Repeated invocations of the merge engine against the same destination
path (e.g. consecutive runs): the destination state is threaded through;
the first error stops the sequence, as `?` does in the caller. -/
def runSeq (opts : Options) : List (FsTree × Path) → Option FsTree → Path → MergeOut
  | [], d, _ => ⟨none, d, [], []⟩
  | (t, op) :: rest, d, dp =>
    match (symlink_or_descend opts t op d dp).err with
    | some e =>
      ⟨some e, (symlink_or_descend opts t op d dp).dest,
       (symlink_or_descend opts t op d dp).reports,
       (symlink_or_descend opts t op d dp).muts⟩
    | none =>
      ⟨(runSeq opts rest (symlink_or_descend opts t op d dp).dest dp).err,
       (runSeq opts rest (symlink_or_descend opts t op d dp).dest dp).dest,
       (symlink_or_descend opts t op d dp).reports
         ++ (runSeq opts rest (symlink_or_descend opts t op d dp).dest dp).reports,
       (symlink_or_descend opts t op d dp).muts
         ++ (runSeq opts rest (symlink_or_descend opts t op d dp).dest dp).muts⟩

/-- Under dry-run, a whole sequence of merges leaves the destination
untouched and performs zero mutations. -/
theorem runSeq_dry (opts : Options) (h : opts.dry_run = true)
    (ops : List (FsTree × Path)) (d : Option FsTree) (dp : Path) :
    (runSeq opts ops d dp).dest = d ∧ (runSeq opts ops d dp).muts = [] := by
  induction ops generalizing d with
  | nil => simp [runSeq]
  | cons hd rest ih =>
    obtain ⟨t, op⟩ := hd
    have hc := dry_run_preserves.1 t opts op d dp h
    rw [runSeq]
    cases hcerr : (symlink_or_descend opts t op d dp).err with
    | some e => simp [hc.1, hc.2]
    | none =>
      have hr := ih (symlink_or_descend opts t op d dp).dest
      rw [hc.1] at hr
      simp [hr.1, hr.2, hc.1, hc.2]

/-! ## The package driver (`main`, src/main.rs:121-226) -/

/-- Shallow embedding of a possibly-panicking computation:
`panicked` models a Rust panic. -/
inductive PanicOr (α : Type) : Type
  | panicked
  | ok (a : α)
deriving DecidableEq

/-- `strip_at_sign_prefix` (src/main.rs:234-242). It indexes
`file_name[0]` unconditionally, so on the empty string it panics
(out-of-bounds); otherwise it strips one leading `@`. -/
def strip_at_sign_prefix (fileName : String) : PanicOr (Option String) :=
  match fileName.data with
  | [] => PanicOr.panicked
  | c :: rest => if c = '@' then PanicOr.ok (some (String.mk rest)) else PanicOr.ok none

/-- `Path::strip_prefix` (used at src/main.rs:217): removes `base` from
the front of `p`, failing if `base` is not a prefix. -/
def stripPrefixPath : Path → Path → Option Path
  | p, [] => some p
  | [], _ :: _ => none
  | a :: p, b :: q => if a = b then stripPrefixPath p q else none

/-- The destination root for non-redirected entries: `Path::new("/")`
(src/main.rs:215) — the filesystem root, i.e. the empty component list. -/
def rootDir : Path := []

/-- `std::env::var_os` over an explicit environment. -/
def lookupEnv (key : String) : List (String × Path) → Option Path
  | [] => none
  | (k, v) :: rest => if k = key then some v else lookupEnv key rest

/-- The four well-known fallback directories (src/main.rs:140-143),
computed from the home directory. -/
def defaultsOf (home : Path) (key : String) : Option Path :=
  if key = "XDG_DATA_HOME" then some (home ++ [".local", "share"])
  else if key = "XDG_STATE_HOME" then some (home ++ [".local", "state"])
  else if key = "XDG_CACHE_HOME" then some (home ++ [".cache"])
  else if key = "XDG_CONFIG_HOME" then some (home ++ [".config"])
  else none

/-- Redirect resolution (src/main.rs:193-209): the environment override
first, then the four well-known defaults, else failure. -/
def resolveRedirect (env : List (String × Path)) (home : Path) (key : String) :
    Option Path :=
  match lookupEnv key env with
  | some p => some p
  | none => defaultsOf home key

/-- `descend_and_symlink` (src/main.rs:245-256) as invoked by the driver
on a redirected entry: `read_dir` the entry (failing on non-directories
with the source path attached), then merge each child into the resolved
directory, whose current children are `destChildren`. -/
def descend_and_symlink (opts : Options) (orig : FsTree) (origPath : Path)
    (link : Path) (destChildren : Forest) : ChildrenOut :=
  match readDir orig with
  | none => ⟨some (MergeErr.unableToDescend origPath), destChildren, [], []⟩
  | some cs => go_children opts cs origPath link destChildren

/-- A top-level package entry as the driver sees it: its file name, its
source subtree, the current destination state at its non-redirected
destination, and — for redirected entries — the current children of the
redirect target directory. -/
structure Entry where
  name : String
  tree : FsTree
  dest : Option FsTree
  redirectChildren : Forest

/-- Driver-level failures (each `?` site of `main`'s entry loop). -/
inductive DriverErr : Type
  | envVarNotFound (key : String)
  | stripPrefixFailed
  | merge (e : MergeErr)
deriving DecidableEq

/-- Observable outcome of driver-level processing. -/
structure EntryOut where
  err : Option DriverErr
  reports : List Report
  muts : List Mutation
deriving DecidableEq

/-- Processing of one top-level entry (src/main.rs:192-221): a marked
name (`@KEY`) resolves `KEY` and merges the entry's children into the
resolved directory; an unmarked name merges the entry itself into
`/` joined with its path relative to the package. -/
def processEntry (env : List (String × Path)) (home : Path) (opts : Options)
    (pkgPath : Path) (e : Entry) : PanicOr EntryOut :=
  match strip_at_sign_prefix e.name with
  | PanicOr.panicked => PanicOr.panicked
  | PanicOr.ok (some key) =>
    match resolveRedirect env home key with
    | none => PanicOr.ok ⟨some (DriverErr.envVarNotFound key), [], []⟩
    | some link =>
      PanicOr.ok
        ⟨Option.map DriverErr.merge
          (descend_and_symlink opts e.tree (pkgPath ++ [e.name]) link e.redirectChildren).err,
         (descend_and_symlink opts e.tree (pkgPath ++ [e.name]) link e.redirectChildren).reports,
         (descend_and_symlink opts e.tree (pkgPath ++ [e.name]) link e.redirectChildren).muts⟩
  | PanicOr.ok none =>
    match stripPrefixPath (pkgPath ++ [e.name]) pkgPath with
    | none => PanicOr.ok ⟨some DriverErr.stripPrefixFailed, [], []⟩
    | some rel =>
      PanicOr.ok
        ⟨Option.map DriverErr.merge
          (symlink_or_descend opts e.tree (pkgPath ++ [e.name]) e.dest (rootDir ++ rel)).err,
         (symlink_or_descend opts e.tree (pkgPath ++ [e.name]) e.dest (rootDir ++ rel)).reports,
         (symlink_or_descend opts e.tree (pkgPath ++ [e.name]) e.dest (rootDir ++ rel)).muts⟩

/-- The entry loop of one package (src/main.rs:186-222): sequential, the
first failing entry stops the loop (`?`). -/
def processEntries (env : List (String × Path)) (home : Path) (opts : Options)
    (pkgPath : Path) : List Entry → PanicOr EntryOut
  | [] => PanicOr.ok ⟨none, [], []⟩
  | e :: rest =>
    match processEntry env home opts pkgPath e with
    | PanicOr.panicked => PanicOr.panicked
    | PanicOr.ok o =>
      match o.err with
      | some err => PanicOr.ok ⟨some err, o.reports, o.muts⟩
      | none =>
        match processEntries env home opts pkgPath rest with
        | PanicOr.panicked => PanicOr.panicked
        | PanicOr.ok o2 => PanicOr.ok ⟨o2.err, o.reports ++ o2.reports, o.muts ++ o2.muts⟩

/-- A package: its name and top-level entries. Its path is
`home/.xdot/<name>` (src/main.rs:145,172-173). -/
structure Package where
  name : String
  entries : List Entry

/-- The package loop of `main` (src/main.rs:171-223): one banner line per
package, then its entries; any error propagates out of `main` via `?`,
terminating the whole run. -/
def processPackages (env : List (String × Path)) (home : Path) (opts : Options) :
    List Package → PanicOr EntryOut
  | [] => PanicOr.ok ⟨none, [], []⟩
  | p :: rest =>
    match processEntries env home opts (home ++ [".xdot", p.name]) p.entries with
    | PanicOr.panicked => PanicOr.panicked
    | PanicOr.ok o =>
      match o.err with
      | some err =>
        PanicOr.ok ⟨some err,
          Report.pkgBanner opts.unlink p.name (home ++ [".xdot", p.name]) :: o.reports,
          o.muts⟩
      | none =>
        match processPackages env home opts rest with
        | PanicOr.panicked => PanicOr.panicked
        | PanicOr.ok o2 =>
          PanicOr.ok ⟨o2.err,
            (Report.pkgBanner opts.unlink p.name (home ++ [".xdot", p.name]) :: o.reports)
              ++ o2.reports,
            o.muts ++ o2.muts⟩

/-- A whole run: the dry-run banner (src/main.rs:136-138) precedes the
package loop. -/
def runAll (env : List (String × Path)) (home : Path) (opts : Options)
    (pkgs : List Package) : PanicOr EntryOut :=
  match processPackages env home opts pkgs with
  | PanicOr.panicked => PanicOr.panicked
  | PanicOr.ok o =>
    PanicOr.ok ⟨o.err, (if opts.dry_run then [Report.dryRunBanner] else []) ++ o.reports,
      o.muts⟩

/-- `strip_prefix` undoes a join. -/
theorem stripPrefixPath_append (base rest : Path) :
    stripPrefixPath (base ++ rest) base = some rest := by
  induction base with
  | nil => cases rest <;> simp [stripPrefixPath]
  | cons a p ih => simpa [stripPrefixPath] using ih

/-! ## The claims -/

/-- C10: the redirect-marker detector (`strip_at_sign_prefix`), applied to
a non-empty file name, returns the suffix after the first byte wrapped in
`Some` iff the first byte is `@`, and `None` otherwise; on the empty
string its unconditional indexing of the first byte panics, so it is
total only under the precondition that the name is non-empty. -/
theorem C10_strip_at_sign_prefix (c : Char) (rest : List Char) :
    strip_at_sign_prefix (String.mk (c :: rest))
        = (if c = '@' then PanicOr.ok (some (String.mk rest)) else PanicOr.ok none)
      ∧ strip_at_sign_prefix "" = PanicOr.panicked :=
  ⟨rfl, rfl⟩

/-- C3: the identity comparison used by the merge engine yields `true` iff
both metadata reads succeed and the (device, inode) pairs agree; a failed
read — nonexistent path or permission denied — yields `false` instead of
propagating an error. -/
theorem C3_same_object (a b : Option FsTree) :
    (same_object a b = true
      ↔ ∃ ma mb, metadata a = Except.ok ma ∧ metadata b = Except.ok mb
          ∧ ma.dev = mb.dev ∧ ma.ino = mb.ino)
      ∧ same_object none b = false
      ∧ same_object (some FsTree.denied) b = false := by
  refine ⟨?_, same_object_none_left b, same_object_denied_left b⟩
  unfold same_object
  cases ha : metadata a with
  | error e => simp [ha]
  | ok ma =>
    cases hb : metadata b with
    | error e => simp [hb]
    | ok mb =>
      simp only [Bool.and_eq_true, decide_eq_true_eq]
      constructor
      · intro h
        exact ⟨ma, mb, rfl, rfl, h.2, h.1⟩
      · rintro ⟨ma', mb', hma, hmb, hdev, hino⟩
        cases hma
        cases hmb
        exact ⟨hino, hdev⟩

/-- C2: a destination that exists as a regular file and is not the same
object as the source is a conflict: the merge fails with an error naming
the destination path, mutates nothing at or below that path, and the
error stops the enclosing loop (the siblings after it are not processed,
so the error propagates to the caller). -/
theorem C2_conflict (opts : Options) (orig : FsTree) (op : Path) (fd fi : Nat)
    (dp : Path) (n : String) (rest : Forest) (ds : Forest)
    (hne : same_object (some (FsTree.file fd fi)) (some orig) = false)
    (hds : Forest.lookup n ds = some (FsTree.file fd fi)) :
    symlink_or_descend opts orig op (some (FsTree.file fd fi)) dp
        = ⟨some (MergeErr.alreadyExists dp), some (FsTree.file fd fi), [], []⟩
      ∧ go_children opts (Forest.cons n orig rest) op dp ds
        = ⟨some (MergeErr.alreadyExists (dp ++ [n])), ds, [], []⟩ := by
  constructor
  · exact conflict_branch opts orig op fd fi dp hne
  · rw [go_children, hds]
    rw [conflict_branch opts orig (op ++ [n]) fd fi (dp ++ [n]) hne]
    simp only
    rw [Forest.setChild_id n _ ds hds]

theorem C2_witness :
    symlink_or_descend ⟨0, false, false⟩ (FsTree.file 0 1) ["s"]
        (some (FsTree.file 0 2)) ["d"]
        = ⟨some (MergeErr.alreadyExists ["d"]), some (FsTree.file 0 2), [], []⟩
      ∧ go_children ⟨0, false, false⟩ (Forest.cons "n" (FsTree.file 0 1) Forest.nil)
          ["s"] ["d"] (Forest.cons "n" (FsTree.file 0 2) Forest.nil)
        = ⟨some (MergeErr.alreadyExists ["d", "n"]),
           Forest.cons "n" (FsTree.file 0 2) Forest.nil, [], []⟩ :=
  C2_conflict ⟨0, false, false⟩ (FsTree.file 0 1) ["s"] 0 2 ["d"] "n" Forest.nil
    (Forest.cons "n" (FsTree.file 0 2) Forest.nil) rfl rfl

/-- C1: a destination that exists as a directory and is not the same
object as the (directory) source is a merge point: the engine recurses
into the source's children, each child's destination being the
destination directory joined with the child's name (`go_children`), the
pre-existing destination directory itself is never replaced by a link
(the result keeps its `dir` node), an unrelated pre-existing child is
left untouched, and (in linking, non-dry-run mode) a source child absent
from the destination ends up linked alongside it. -/
theorem C1_merge_point (opts : Options) (v : Nat) (od oi dd di : Nat)
    (ocs dcs : Forest) (op dp : Path) (x n : String) (t : FsTree)
    (hdiff : same_object (some (FsTree.dir dd di dcs)) (some (FsTree.dir od oi ocs))
      = false)
    (hx : Forest.keyFree x ocs = true)
    (hnodup : Forest.nodupKeys ocs = true)
    (hn : Forest.lookup n ocs = some t)
    (hmiss : Forest.lookup n dcs = none)
    (herr : (go_children ⟨v, false, false⟩ ocs op dp dcs).err = none) :
    symlink_or_descend opts (FsTree.dir od oi ocs) op (some (FsTree.dir dd di dcs)) dp
        = ⟨(go_children opts ocs op dp dcs).err,
           some (FsTree.dir dd di (go_children opts ocs op dp dcs).children),
           (if opts.verbosity > 0 then [Report.descending dp] else [])
             ++ (go_children opts ocs op dp dcs).reports,
           (go_children opts ocs op dp dcs).muts⟩
      ∧ Forest.lookup x (go_children opts ocs op dp dcs).children = Forest.lookup x dcs
      ∧ Forest.lookup n (go_children ⟨v, false, false⟩ ocs op dp dcs).children = some t :=
  ⟨descend_branch opts od oi dd di ocs dcs op dp hdiff,
   go_children_frame opts ocs op dp dcs x hx,
   go_children_new v ocs op dp dcs n t hnodup hn hmiss herr⟩

theorem C1_witness :
    symlink_or_descend ⟨0, false, false⟩
        (FsTree.dir 0 1 (Forest.cons "y" (FsTree.file 0 2) Forest.nil)) ["p"]
        (some (FsTree.dir 5 5 (Forest.cons "x" (FsTree.file 9 9) Forest.nil))) ["d"]
        = ⟨(go_children ⟨0, false, false⟩ (Forest.cons "y" (FsTree.file 0 2) Forest.nil)
              ["p"] ["d"] (Forest.cons "x" (FsTree.file 9 9) Forest.nil)).err,
           some (FsTree.dir 5 5
             (go_children ⟨0, false, false⟩ (Forest.cons "y" (FsTree.file 0 2) Forest.nil)
               ["p"] ["d"] (Forest.cons "x" (FsTree.file 9 9) Forest.nil)).children),
           (if (0 : Nat) > 0 then [Report.descending ["d"]] else [])
             ++ (go_children ⟨0, false, false⟩ (Forest.cons "y" (FsTree.file 0 2) Forest.nil)
               ["p"] ["d"] (Forest.cons "x" (FsTree.file 9 9) Forest.nil)).reports,
           (go_children ⟨0, false, false⟩ (Forest.cons "y" (FsTree.file 0 2) Forest.nil)
             ["p"] ["d"] (Forest.cons "x" (FsTree.file 9 9) Forest.nil)).muts⟩
      ∧ Forest.lookup "x"
          (go_children ⟨0, false, false⟩ (Forest.cons "y" (FsTree.file 0 2) Forest.nil)
            ["p"] ["d"] (Forest.cons "x" (FsTree.file 9 9) Forest.nil)).children
        = Forest.lookup "x" (Forest.cons "x" (FsTree.file 9 9) Forest.nil)
      ∧ Forest.lookup "y"
          (go_children ⟨0, false, false⟩ (Forest.cons "y" (FsTree.file 0 2) Forest.nil)
            ["p"] ["d"] (Forest.cons "x" (FsTree.file 9 9) Forest.nil)).children
        = some (FsTree.file 0 2) :=
  C1_merge_point ⟨0, false, false⟩ 0 0 1 5 5
    (Forest.cons "y" (FsTree.file 0 2) Forest.nil)
    (Forest.cons "x" (FsTree.file 9 9) Forest.nil)
    ["p"] ["d"] "x" "y" (FsTree.file 0 2) rfl (by decide) (by decide) rfl rfl rfl

/-- C9: for a top-level entry without the `@` marker, the driver merges it
toward the destination root joined with the entry's path relative to the
package directory, and that destination root is the absolute filesystem
root `/` (`rootDir`), not the home directory: an entry named `e` is
merged toward `/e`, whatever `home` is. -/
theorem C9_unmarked_destination (env : List (String × Path)) (home : Path)
    (opts : Options) (pkgPath : Path) (name : String) (c : Char) (cs : List Char)
    (t : FsTree) (d : Option FsTree) (rc : Forest)
    (hname : name.data = c :: cs) (hc : ¬(c = '@')) :
    stripPrefixPath (pkgPath ++ [name]) pkgPath = some [name]
      ∧ rootDir ++ [name] = [name]
      ∧ processEntry env home opts pkgPath ⟨name, t, d, rc⟩
        = PanicOr.ok
            ⟨Option.map DriverErr.merge
              (symlink_or_descend opts t (pkgPath ++ [name]) d (rootDir ++ [name])).err,
             (symlink_or_descend opts t (pkgPath ++ [name]) d (rootDir ++ [name])).reports,
             (symlink_or_descend opts t (pkgPath ++ [name]) d (rootDir ++ [name])).muts⟩ := by
  have hstrip : strip_at_sign_prefix name = PanicOr.ok none := by
    unfold strip_at_sign_prefix
    rw [hname]
    simp [hc]
  refine ⟨stripPrefixPath_append pkgPath [name], rfl, ?_⟩
  unfold processEntry
  simp only
  rw [hstrip]
  simp only [stripPrefixPath_append pkgPath [name]]

theorem C9_witness :
    stripPrefixPath (["h", ".xdot", "pkg"] ++ ["e"]) ["h", ".xdot", "pkg"] = some ["e"]
      ∧ rootDir ++ ["e"] = ["e"]
      ∧ processEntry [] ["h"] ⟨0, false, false⟩ ["h", ".xdot", "pkg"]
          ⟨"e", FsTree.file 0 1, none, Forest.nil⟩
        = PanicOr.ok
            ⟨Option.map DriverErr.merge
              (symlink_or_descend ⟨0, false, false⟩ (FsTree.file 0 1)
                (["h", ".xdot", "pkg"] ++ ["e"]) none (rootDir ++ ["e"])).err,
             (symlink_or_descend ⟨0, false, false⟩ (FsTree.file 0 1)
               (["h", ".xdot", "pkg"] ++ ["e"]) none (rootDir ++ ["e"])).reports,
             (symlink_or_descend ⟨0, false, false⟩ (FsTree.file 0 1)
               (["h", ".xdot", "pkg"] ++ ["e"]) none (rootDir ++ ["e"])).muts⟩ :=
  C9_unmarked_destination [] ["h"] ⟨0, false, false⟩ ["h", ".xdot", "pkg"] "e" 'e' []
    (FsTree.file 0 1) none Forest.nil rfl (by decide)

/-- C6 (amended): when redirect resolution fails for a marked entry — the
key is neither in the environment overrides nor among the four well-known
defaults — the run fails with a descriptive error naming the key, and the
whole run stops: no further entry of the current package and no
subsequent package is processed (in the source the `?` at
src/main.rs:209 propagates out of `main`). -/
theorem C6_redirect_failure_stops_run (env : List (String × Path)) (home : Path)
    (opts : Options) (key : String) (t : FsTree) (d : Option FsTree) (rc : Forest)
    (rest : List Entry) (pkgs : List Package) (pname : String)
    (hres : resolveRedirect env home key = none) :
    processPackages env home opts
        ({ name := pname,
           entries := ⟨String.mk ('@' :: key.data), t, d, rc⟩ :: rest } :: pkgs)
      = PanicOr.ok ⟨some (DriverErr.envVarNotFound key),
          [Report.pkgBanner opts.unlink pname (home ++ [".xdot", pname])], []⟩ := by
  have hstrip : strip_at_sign_prefix (String.mk ('@' :: key.data))
      = PanicOr.ok (some key) := by
    unfold strip_at_sign_prefix
    simp
  rw [processPackages, processEntries]
  unfold processEntry
  simp only
  rw [hstrip]
  simp [hres]

theorem C6_counterexample :
    processPackages [] ["h"] ⟨0, false, false⟩
        [⟨"p1", [⟨"@FOO", FsTree.file 0 1, none, Forest.nil⟩]⟩,
         ⟨"p2", [⟨"e", FsTree.file 0 2, none, Forest.nil⟩]⟩]
      = PanicOr.ok ⟨some (DriverErr.envVarNotFound "FOO"),
          [Report.pkgBanner false "p1" ["h", ".xdot", "p1"]], []⟩
      ∧ Report.pkgBanner false "p2" ["h", ".xdot", "p2"]
        ∉ [Report.pkgBanner false "p1" ["h", ".xdot", "p1"]] := by
  constructor
  · decide
  · decide

theorem C6_witness :
    processPackages [] ["h"] ⟨0, false, false⟩
        ({ name := "p1",
           entries := [⟨String.mk ('@' :: ("FOO" : String).data), FsTree.file 0 1, none,
             Forest.nil⟩] } :: [⟨"p2", [⟨"e", FsTree.file 0 2, none, Forest.nil⟩]⟩])
      = PanicOr.ok ⟨some (DriverErr.envVarNotFound "FOO"),
          [Report.pkgBanner false "p1" (["h"] ++ [".xdot", "p1"])], []⟩ :=
  C6_redirect_failure_stops_run [] ["h"] ⟨0, false, false⟩ "FOO" (FsTree.file 0 1)
    none Forest.nil [] [⟨"p2", [⟨"e", FsTree.file 0 2, none, Forest.nil⟩]⟩] "p1" rfl

/-- C7 (amended): an error while creating a link or while listing the
source directory is surfaced as fatal with the offending path(s)
interpolated into its message; an error while removing a link is surfaced
as fatal but its message ("Unable to remove symlink", src/main.rs:266)
carries no path; and a metadata read failure other than not-found is
never surfaced: it selects the does-not-exist branch, so in unlink mode
and in dry-run linking mode it is silently swallowed (the dry-run merge
even reports the link action and succeeds), and in linking mode only the
subsequent symlink-creation failure (not the metadata error) surfaces. -/
theorem C7_error_surfacing :
    (∀ (v : Nat) (orig : FsTree) (op dp : Path),
      (symlink_or_descend ⟨v, false, false⟩ orig op (some FsTree.denied) dp).err
        = some (MergeErr.unableToSymlink dp op))
    ∧ (∀ (opts : Options) (op dp : Path) (od oi dd di : Nat) (dcs : Forest),
      same_object (some (FsTree.dir dd di dcs)) (some (FsTree.file od oi)) = false →
      (symlink_or_descend opts (FsTree.file od oi) op (some (FsTree.dir dd di dcs)) dp).err
        = some (MergeErr.unableToDescend op))
    ∧ (∀ (v : Nat) (dr : Bool) (orig : FsTree) (op dp : Path),
      (symlink_or_descend ⟨v, true, dr⟩ orig op (some FsTree.denied) dp).err = none)
    ∧ (∀ (v : Nat) (orig : FsTree) (op dp : Path),
      symlink_or_descend ⟨v, false, true⟩ orig op (some FsTree.denied) dp
        = ⟨none, some FsTree.denied, [Report.linking dp op], []⟩)
    ∧ (∀ (l o : Path),
      MergeErr.pathsInMessage (MergeErr.unableToSymlink l o) = [l, o]
        ∧ MergeErr.pathsInMessage (MergeErr.unableToDescend o) = [o]
        ∧ MergeErr.pathsInMessage (MergeErr.alreadyExists l) = [l])
    ∧ MergeErr.pathsInMessage MergeErr.unableToRemove = [] :=
  ⟨fun v orig op dp => by
    rw [denied_dest_link ⟨v, false, false⟩ orig op dp rfl rfl],
   fun opts op dp od oi dd di dcs h => by
    rw [descend_file_branch opts op od oi dd di dcs dp h],
   fun v dr orig op dp => by
    rw [denied_dest_unlink ⟨v, true, dr⟩ orig op dp rfl],
   fun v orig op dp => denied_dest_dry ⟨v, false, true⟩ orig op dp rfl rfl,
   fun l o => ⟨rfl, rfl, rfl⟩,
   rfl⟩

theorem C7_witness :
    (symlink_or_descend ⟨0, false, false⟩ (FsTree.file 0 1) ["s"] (some FsTree.denied)
        ["d"]).err = some (MergeErr.unableToSymlink ["d"] ["s"])
      ∧ (symlink_or_descend ⟨0, false, false⟩ (FsTree.file 0 1) ["s"]
          (some (FsTree.dir 5 5 Forest.nil)) ["d"]).err
        = some (MergeErr.unableToDescend ["s"])
      ∧ (symlink_or_descend ⟨0, true, false⟩ (FsTree.file 0 1) ["s"] (some FsTree.denied)
          ["d"]).err = none
      ∧ symlink_or_descend ⟨0, false, true⟩ (FsTree.file 0 1) ["s"] (some FsTree.denied)
          ["d"]
        = ⟨none, some FsTree.denied, [Report.linking ["d"] ["s"]], []⟩
      ∧ (MergeErr.pathsInMessage (MergeErr.unableToSymlink ["d"] ["s"]) = [["d"], ["s"]]
          ∧ MergeErr.pathsInMessage (MergeErr.unableToDescend ["s"]) = [["s"]]
          ∧ MergeErr.pathsInMessage (MergeErr.alreadyExists ["d"]) = [["d"]])
      ∧ MergeErr.pathsInMessage MergeErr.unableToRemove = [] :=
  ⟨C7_error_surfacing.1 0 (FsTree.file 0 1) ["s"] ["d"],
   C7_error_surfacing.2.1 ⟨0, false, false⟩ ["s"] ["d"] 0 1 5 5 Forest.nil rfl,
   C7_error_surfacing.2.2.1 0 false (FsTree.file 0 1) ["s"] ["d"],
   C7_error_surfacing.2.2.2.1 0 (FsTree.file 0 1) ["s"] ["d"],
   C7_error_surfacing.2.2.2.2.1 ["d"] ["s"],
   C7_error_surfacing.2.2.2.2.2⟩

theorem C7_counterexample :
    metadata (some FsTree.denied) = Except.error IOErr.permissionDenied
      ∧ symlink_or_descend ⟨0, true, false⟩ (FsTree.file 0 1) ["s"] (some FsTree.denied)
          ["d"]
        = ⟨none, some FsTree.denied, [], []⟩
      ∧ MergeErr.pathsInMessage MergeErr.unableToRemove = [] :=
  ⟨rfl, rfl, rfl⟩

/-- C8 (amended): the link-creation report (and the removal report in
unlink mode) is emitted in dry-run mode as well, with per-action text
identical to that of an executed action; dry-run output is distinguished
only by the single run-level banner emitted once at startup, not by a
per-action prefix. -/
theorem C8_report_emission (v : Nat) (orig : FsTree) (op dp : Path)
    (d : Option FsTree) (env : List (String × Path)) (home : Path)
    (opts : Options) (pkgs : List Package) (o : EntryOut)
    (hso : same_object d (some orig) = true)
    (hrun : processPackages env home opts pkgs = PanicOr.ok o)
    (hdry : opts.dry_run = true) :
    (symlink_or_descend ⟨v, false, true⟩ orig op none dp).reports
        = [Report.linking dp op]
      ∧ (symlink_or_descend ⟨v, false, false⟩ orig op none dp).reports
        = [Report.linking dp op]
      ∧ (symlink_or_descend ⟨v, true, true⟩ orig op d dp).reports
        = [Report.removing dp]
      ∧ (symlink_or_descend ⟨v, true, false⟩ orig op d dp).reports
        = [Report.removing dp]
      ∧ runAll env home opts pkgs
        = PanicOr.ok ⟨o.err, Report.dryRunBanner :: o.reports, o.muts⟩ := by
  refine ⟨?_, ?_, ?_, ?_, ?_⟩
  · rw [create_branch ⟨v, false, true⟩ orig op dp rfl]
    rfl
  · rw [create_branch ⟨v, false, false⟩ orig op dp rfl]
    rfl
  · rw [remove_branch ⟨v, true, true⟩ orig op d dp hso rfl]
    rfl
  · rw [remove_branch ⟨v, true, false⟩ orig op d dp hso rfl]
    rfl
  · unfold runAll
    rw [hrun, hdry]
    simp

theorem C8_witness :
    (symlink_or_descend ⟨0, false, true⟩ (FsTree.file 0 1) ["s"] none ["d"]).reports
        = [Report.linking ["d"] ["s"]]
      ∧ (symlink_or_descend ⟨0, false, false⟩ (FsTree.file 0 1) ["s"] none ["d"]).reports
        = [Report.linking ["d"] ["s"]]
      ∧ (symlink_or_descend ⟨0, true, true⟩ (FsTree.file 0 1) ["s"]
          (some (FsTree.file 0 1)) ["d"]).reports = [Report.removing ["d"]]
      ∧ (symlink_or_descend ⟨0, true, false⟩ (FsTree.file 0 1) ["s"]
          (some (FsTree.file 0 1)) ["d"]).reports = [Report.removing ["d"]]
      ∧ runAll [] ["h"] ⟨0, false, true⟩ []
        = PanicOr.ok ⟨(⟨none, [], []⟩ : EntryOut).err,
            Report.dryRunBanner :: (⟨none, [], []⟩ : EntryOut).reports,
            (⟨none, [], []⟩ : EntryOut).muts⟩ :=
  C8_report_emission 0 (FsTree.file 0 1) ["s"] ["d"] (some (FsTree.file 0 1)) [] ["h"]
    ⟨0, false, true⟩ [] ⟨none, [], []⟩ rfl rfl rfl

theorem C8_counterexample :
    (symlink_or_descend ⟨0, false, true⟩ (FsTree.file 0 1) ["s"] none ["d"]).reports
      = (symlink_or_descend ⟨0, false, false⟩ (FsTree.file 0 1) ["s"] none ["d"]).reports :=
  rfl

/-- C5 (amended): running under dry-run leaves the filesystem completely
unchanged — for any sequence of merges, the destination state is exactly
the initial one and zero mutations are performed; and for a single merge
of a source with pairwise-distinct directory child names (as `read_dir`
guarantees) evaluated from a given state, the reported actions under
dry-run are identical to those of the non-dry-run merge from that same
state, provided that merge succeeds. (Across a sequence, reports can
differ, because non-dry-run mutations change the state later operations
see.) -/
theorem C5_dry_run (v : Nat) (u : Bool) (ops : List (FsTree × Path))
    (d : Option FsTree) (dp : Path) (orig : FsTree) (op : Path) (d2 : Option FsTree)
    (hok : FsTree.namesNodup orig = true)
    (hsucc : (symlink_or_descend ⟨v, u, false⟩ orig op d2 dp).err = none) :
    ((runSeq ⟨v, u, true⟩ ops d dp).dest = d ∧ (runSeq ⟨v, u, true⟩ ops d dp).muts = [])
      ∧ (symlink_or_descend ⟨v, u, true⟩ orig op d2 dp).reports
        = (symlink_or_descend ⟨v, u, false⟩ orig op d2 dp).reports :=
  ⟨runSeq_dry ⟨v, u, true⟩ rfl ops d dp,
   (rep_eq_pair.1 orig v u op d2 dp hok hsucc).1⟩

theorem C5_witness :
    ((runSeq ⟨0, false, true⟩ [(FsTree.file 0 1, ["s"])] none ["d"]).dest = none
        ∧ (runSeq ⟨0, false, true⟩ [(FsTree.file 0 1, ["s"])] none ["d"]).muts = [])
      ∧ (symlink_or_descend ⟨0, false, true⟩ (FsTree.file 0 1) ["s"] none ["d"]).reports
        = (symlink_or_descend ⟨0, false, false⟩ (FsTree.file 0 1) ["s"] none ["d"]).reports :=
  C5_dry_run 0 false [(FsTree.file 0 1, ["s"])] none ["d"] (FsTree.file 0 1) ["s"] none
    rfl rfl

theorem C5_counterexample :
    (runSeq ⟨0, false, true⟩ [(FsTree.file 0 1, ["s"]), (FsTree.file 0 1, ["s"])]
        none ["d"]).reports
      ≠ (runSeq ⟨0, false, false⟩ [(FsTree.file 0 1, ["s"]), (FsTree.file 0 1, ["s"])]
        none ["d"]).reports := by
  decide

/-- C4 (amended): idempotence holds for source trees every node of which
is observable (no metadata read fails) and whose directories have
pairwise-distinct child names: if a first linking-mode, non-dry-run merge
succeeds, a second merge with the same inputs from the resulting state
succeeds, produces the identical destination state, and performs zero
mutations. -/
theorem C4_idempotent (v : Nat) (orig : FsTree) (op : Path) (d : Option FsTree)
    (dp : Path)
    (hok : FsTree.okTree orig = true)
    (h1 : (symlink_or_descend ⟨v, false, false⟩ orig op d dp).err = none) :
    (symlink_or_descend ⟨v, false, false⟩ orig op
        (symlink_or_descend ⟨v, false, false⟩ orig op d dp).dest dp).err = none
      ∧ (symlink_or_descend ⟨v, false, false⟩ orig op
          (symlink_or_descend ⟨v, false, false⟩ orig op d dp).dest dp).dest
        = (symlink_or_descend ⟨v, false, false⟩ orig op d dp).dest
      ∧ (symlink_or_descend ⟨v, false, false⟩ orig op
          (symlink_or_descend ⟨v, false, false⟩ orig op d dp).dest dp).muts = [] :=
  idem_pair.1 orig v op d dp hok h1

theorem C4_witness :
    (symlink_or_descend ⟨0, false, false⟩
        (FsTree.dir 0 1 (Forest.cons "y" (FsTree.file 0 2) Forest.nil)) ["p"]
        (symlink_or_descend ⟨0, false, false⟩
          (FsTree.dir 0 1 (Forest.cons "y" (FsTree.file 0 2) Forest.nil)) ["p"]
          none ["d"]).dest ["d"]).err = none
      ∧ (symlink_or_descend ⟨0, false, false⟩
          (FsTree.dir 0 1 (Forest.cons "y" (FsTree.file 0 2) Forest.nil)) ["p"]
          (symlink_or_descend ⟨0, false, false⟩
            (FsTree.dir 0 1 (Forest.cons "y" (FsTree.file 0 2) Forest.nil)) ["p"]
            none ["d"]).dest ["d"]).dest
        = (symlink_or_descend ⟨0, false, false⟩
            (FsTree.dir 0 1 (Forest.cons "y" (FsTree.file 0 2) Forest.nil)) ["p"]
            none ["d"]).dest
      ∧ (symlink_or_descend ⟨0, false, false⟩
          (FsTree.dir 0 1 (Forest.cons "y" (FsTree.file 0 2) Forest.nil)) ["p"]
          (symlink_or_descend ⟨0, false, false⟩
            (FsTree.dir 0 1 (Forest.cons "y" (FsTree.file 0 2) Forest.nil)) ["p"]
            none ["d"]).dest ["d"]).muts = [] :=
  C4_idempotent 0 (FsTree.dir 0 1 (Forest.cons "y" (FsTree.file 0 2) Forest.nil))
    ["p"] none ["d"] rfl rfl

theorem C4_counterexample :
    (symlink_or_descend ⟨0, false, false⟩
        (FsTree.dir 0 1 (Forest.cons "c" FsTree.denied Forest.nil)) ["p"]
        (some (FsTree.dir 5 5 Forest.nil)) ["d"]).err = none
      ∧ (symlink_or_descend ⟨0, false, false⟩
          (FsTree.dir 0 1 (Forest.cons "c" FsTree.denied Forest.nil)) ["p"]
          (symlink_or_descend ⟨0, false, false⟩
            (FsTree.dir 0 1 (Forest.cons "c" FsTree.denied Forest.nil)) ["p"]
            (some (FsTree.dir 5 5 Forest.nil)) ["d"]).dest ["d"]).err
        = some (MergeErr.unableToSymlink ["d", "c"] ["p", "c"]) :=
  ⟨rfl, rfl⟩

end Xdot
